import Mathlib

/-!
Verification of the SendinBlue (Brevo) email backend adapter
(anymail/backends/sendinblue.py) by a shallow embedding in Lean 4.

JSON-shaped values are modelled by the inductive type JValue; Python
dicts are modelled as association lists with unique keys, manipulated
through dictLookup / dictInsert / dictRemove which reproduce the
insertion-order, replace-in-place semantics of Python dicts.  Fallible
Python code (subscripting that can raise KeyError or TypeError, the
assert in set_recipients) is modelled with Except.
-/

set_option autoImplicit false

namespace SendinBlue

/-- A JSON-shaped Python value: None, bool, number, string, list, dict. -/
inductive JValue where
  | null : JValue
  | jbool (b : Bool) : JValue
  | num (n : Int) : JValue
  | str (s : String) : JValue
  | arr (xs : List JValue) : JValue
  | obj (fields : List (String × JValue)) : JValue

/-- Errors raised by the modelled Python code. -/
inductive PyError where
  | assertionError : PyError
  | keyError : PyError
  | typeError : PyError
  deriving DecidableEq, Repr

section Dict

variable {V : Type}

/-- Python dict subscript read: value of the first entry with the given key. -/
def dictLookup (d : List (String × V)) (k : String) : Option V :=
  match d with
  | [] => none
  | (k1, v1) :: rest => if k1 = k then some v1 else dictLookup rest k

/-- Python dict subscript write: replace the value of an existing key in
place, otherwise append the new entry at the end (insertion order). -/
def dictInsert (d : List (String × V)) (k : String) (v : V) : List (String × V) :=
  match d with
  | [] => [(k, v)]
  | (k1, v1) :: rest => if k1 = k then (k, v) :: rest else (k1, v1) :: dictInsert rest k v

/-- Python dict key deletion (also the removal part of dict.pop). -/
def dictRemove (d : List (String × V)) (k : String) : List (String × V) :=
  match d with
  | [] => []
  | (k1, v1) :: rest => if k1 = k then rest else (k1, v1) :: dictRemove rest k

/-- Right-biased dict union: d updated key-by-key with the entries of e,
as Python dict.update. -/
def dictUpdate (d e : List (String × V)) : List (String × V) :=
  e.foldl (fun acc kv => dictInsert acc kv.1 kv.2) d

end Dict

/-- Key replacement in a requests CaseInsensitiveDict: an existing entry
whose key matches case-insensitively is replaced (keeping the new key
spelling), otherwise the entry is appended. -/
def ciInsert {V : Type} (d : List (String × V)) (k : String) (v : V) : List (String × V) :=
  match d with
  | [] => [(k, v)]
  | (k1, v1) :: rest =>
      if k1.toLower = k.toLower then (k, v) :: rest else (k1, v1) :: ciInsert rest k v

/-- Python truthiness of a JSON-shaped value. -/
def pyTruthy : JValue → Bool
  | .null => false
  | .jbool b => b
  | .num n => n ≠ 0
  | .str s => s ≠ ""
  | .arr xs => !xs.isEmpty
  | .obj fields => !fields.isEmpty

/-- Python iteration over a JSON-shaped value: lists yield their elements,
strings their one-character substrings, dicts their keys; other values
are not iterable. -/
def pyIter : JValue → Option (List JValue)
  | .arr xs => some xs
  | .str s => some (s.toList.map (fun c => JValue.str (String.mk [c])))
  | .obj fields => some (fields.map (fun kv => JValue.str kv.1))
  | _ => none

/-- Python subscript v[k] with a string key: KeyError when the key is
missing from a dict, TypeError when v is not a dict. -/
def jGetItem (v : JValue) (k : String) : Except PyError JValue :=
  match v with
  | .obj fields =>
      match dictLookup fields k with
      | some x => .ok x
      | none => .error .keyError
  | _ => .error .typeError

/-- Python subscript v[i] with an integer index (IndexError and KeyError
are both mapped to keyError; they are never caught by this code). -/
def jIndex (v : JValue) (i : Nat) : Except PyError JValue :=
  match v with
  | .arr xs =>
      match xs[i]? with
      | some x => .ok x
      | none => .error .keyError
  | .str s =>
      match s.toList[i]? with
      | some c => .ok (JValue.str (String.mk [c]))
      | none => .error .keyError
  | _ => .error .typeError

/-- An anymail EmailAddress, reduced to the two attributes this backend
reads: addr_spec and display_name (empty string when absent). -/
structure EmailAddress where
  addr_spec : String
  display_name : String
  deriving DecidableEq, Repr

/-- An anymail attachment, reduced to the three attributes this backend
reads: name (None modelled as Option), base64 content, inline flag. -/
structure Attachment where
  name : Option String
  b64content : String
  inline : Bool
  deriving DecidableEq, Repr

/-- anymail.message.AnymailRecipientStatus: a per-recipient message id
(JValue.null standing for Python None) and a status string. -/
structure AnymailRecipientStatus where
  message_id : JValue
  status : String

/-- The state of a SendinBluePayload: the JSON-shaped request body under
construction (data), the three late-bound auxiliary maps, the two
recipient lists kept for response parsing, the collected
unsupported-feature signals, and the batch-send flag. -/
structure SendinBluePayload where
  data : List (String × JValue)
  merge_data : List (String × JValue)
  metadata : List (String × JValue)
  merge_metadata : List (String × List (String × JValue))
  all_recipients : List EmailAddress
  to_recipients : List EmailAddress
  unsupported : List String
  isBatch : Bool

/-- Modelled from the spec: the base-class unsupported-feature signal,
which is missing from src. The spec describes it as a non-fatal
structured signal (collected/raised per framework convention) that does
not hard-crash payload construction; it is modelled in its non-fatal
form, appending the feature description to a list of collected signals. -/
def unsupported_feature (p : SendinBluePayload) (feature : String) : SendinBluePayload :=
  { p with unsupported := p.unsupported ++ [feature] }

/-- Modelled from the spec: the base-class serialize_json helper (plain
JSON encoding of the request body), which is missing from src. -/
def jsonEscapeChar (c : Char) : String :=
  if c = '\\' then "\\\\"
  else if c = '\"' then "\\\""
  else String.mk [c]

mutual

/-- Modelled from the spec: JSON rendering of a JValue, standing for the
base-class serialize_json (json.dumps), which is missing from src. -/
def serialize_json : JValue → String
  | .null => "null"
  | .jbool true => "true"
  | .jbool false => "false"
  | .num n => toString n
  | .str s => "\"" ++ String.join (s.toList.map jsonEscapeChar) ++ "\""
  | .arr xs => "[" ++ serializeItems xs ++ "]"
  | .obj fields => "\x7b" ++ serializeFields fields ++ "\x7d"

/-- Comma-separated JSON rendering of the elements of a JSON array. -/
def serializeItems : List JValue → String
  | [] => ""
  | [x] => serialize_json x
  | x :: y :: rest => serialize_json x ++ "," ++ serializeItems (y :: rest)

/-- Comma-separated JSON rendering of the fields of a JSON object. -/
def serializeFields : List (String × JValue) → String
  | [] => ""
  | [(k, v)] => serialize_json (.str k) ++ ":" ++ serialize_json v
  | (k, v) :: f :: rest =>
      serialize_json (.str k) ++ ":" ++ serialize_json v ++ "," ++ serializeFields (f :: rest)

end

/-- SendinBluePayload.init_payload: data starts as a dict holding an
empty (case-insensitive) headers dict; the three auxiliary maps start
empty. The recipient lists and the collected signals start empty
(SendinBluePayload.__init__), and the batch flag — computed by the
missing base class from merge_data / merge_metadata usage — starts false. -/
def init_payload : SendinBluePayload where
  data := [("headers", .obj [])]
  merge_data := []
  metadata := []
  merge_metadata := []
  all_recipients := []
  to_recipients := []
  unsupported := []
  isBatch := false

/-- SendinBluePayload.email_object: converts an EmailAddress to the
SendinBlue API object, the name field present only for a non-empty
display name. -/
def email_object (email : EmailAddress) : JValue :=
  .obj (("email", .str email.addr_spec)
    :: (if email.display_name ≠ "" then [("name", .str email.display_name)] else []))

/-- SendinBluePayload.set_recipients: asserts the recipient type is one
of to/cc/bcc; for a non-empty list stores the converted addresses under
that key, extends all_recipients, and for the to type stores
to_recipients; a call with an empty list changes nothing. -/
def set_recipients (p : SendinBluePayload) (recipient_type : String)
    (emails : List EmailAddress) : Except PyError SendinBluePayload :=
  if recipient_type = "to" ∨ recipient_type = "cc" ∨ recipient_type = "bcc" then
    if emails = [] then .ok p
    else .ok { p with
      data := dictInsert p.data recipient_type (.arr (emails.map email_object)),
      all_recipients := p.all_recipients ++ emails,
      to_recipients := if recipient_type = "to" then emails else p.to_recipients }
  else .error .assertionError

/-- SendinBluePayload.set_html_body: a non-empty body is stored under
htmlContent; when htmlContent is already present the call first signals
unsupported-feature (multiple html parts) and then stores the new body
anyway. -/
def set_html_body (p : SendinBluePayload) (body : String) : SendinBluePayload :=
  if body ≠ "" then
    let p1 := if (dictLookup p.data "htmlContent").isSome
      then unsupported_feature p "multiple html parts" else p
    { p1 with data := dictInsert p1.data "htmlContent" (.str body) }
  else p

/-- The {name, content} attachment object built by add_attachment; a
missing name (Python None) and an empty name both render as the empty
string (attachment.name or ""). -/
def attachment_object (a : Attachment) : JValue :=
  .obj [("name", .str (a.name.getD "")), ("content", .str a.b64content)]

/-- SendinBluePayload.add_attachment: builds the {name, content} object,
signals unsupported-feature for an inline attachment, then appends the
object to the attachment array (creating it when absent); a non-array
value under the attachment key would raise a TypeError in Python
(list append on a non-list). -/
def add_attachment (p : SendinBluePayload) (a : Attachment) : Except PyError SendinBluePayload :=
  let att := attachment_object a
  let p1 := if a.inline then unsupported_feature p "inline attachments" else p
  match dictLookup p1.data "attachment" with
  | none => .ok { p1 with data := dictInsert p1.data "attachment" (.arr [att]) }
  | some (.arr xs) => .ok { p1 with data := dictInsert p1.data "attachment" (.arr (xs ++ [att])) }
  | some _ => .error .typeError

/-- SendinBluePayload.set_merge_data: stored for late binding in
serialize_data. -/
def set_merge_data (p : SendinBluePayload) (merge_data : List (String × JValue)) :
    SendinBluePayload :=
  { p with merge_data := merge_data }

/-- SendinBluePayload.set_merge_metadata: stored for late binding in
serialize_data. -/
def set_merge_metadata (p : SendinBluePayload)
    (merge_metadata : List (String × List (String × JValue))) : SendinBluePayload :=
  { p with merge_metadata := merge_metadata }

/-- SendinBluePayload.set_metadata: writes the JSON serialization of the
metadata mapping into the case-insensitive headers dict under
X-Mailin-custom, and keeps the mapping itself for batch serialization.
A missing or non-dict headers value would raise in Python. -/
def set_metadata (p : SendinBluePayload) (metadata : List (String × JValue)) :
    Except PyError SendinBluePayload :=
  match dictLookup p.data "headers" with
  | some (.obj hs) => .ok { p with
      data := dictInsert p.data "headers"
        (.obj (ciInsert hs "X-Mailin-custom" (.str (serialize_json (.obj metadata))))),
      metadata := metadata }
  | some _ => .error .typeError
  | none => .error .keyError

/-- A Python datetime reduced to the fields isoformat renders, with an
optional UTC offset in minutes for an aware datetime. -/
structure PyDatetime where
  year : Nat
  month : Nat
  day : Nat
  hour : Nat
  minute : Nat
  second : Nat
  microsecond : Nat
  utcoffset : Option Int
  deriving DecidableEq, Repr

/-- Left-pads the decimal rendering of n with zeros to the given width. -/
def padNum (width n : Nat) : String :=
  let s := toString n
  String.mk (List.replicate (width - s.length) '0') ++ s

/-- Modelled from the spec: datetime.isoformat with millisecond timespec
(Python standard library, outside src): YYYY-MM-DDTHH:MM:SS.mmm with the
+HH:MM offset appended for an aware datetime. -/
def isoformatMillis (d : PyDatetime) : String :=
  padNum 4 d.year ++ "-" ++ padNum 2 d.month ++ "-" ++ padNum 2 d.day ++ "T"
    ++ padNum 2 d.hour ++ ":" ++ padNum 2 d.minute ++ ":" ++ padNum 2 d.second
    ++ "." ++ padNum 3 (d.microsecond / 1000)
    ++ match d.utcoffset with
       | none => ""
       | some off =>
           (if off < 0 then "-" else "+")
             ++ padNum 2 (off.natAbs / 60) ++ ":" ++ padNum 2 (off.natAbs % 60)

/-- The argument of set_send_at: either a datetime-like value supporting
isoformat, or a value without an isoformat method (a pre-formatted
string), which the duck-typed Python code passes through unchanged. -/
inductive SendAtValue where
  | dt (d : PyDatetime) : SendAtValue
  | preformatted (s : String) : SendAtValue
  deriving DecidableEq, Repr

/-- SendinBluePayload.set_send_at: renders a datetime-like value with
isoformat at millisecond precision; a value whose isoformat call raises
AttributeError or TypeError is stored unchanged. -/
def set_send_at (p : SendinBluePayload) (send_at : SendAtValue) : SendinBluePayload :=
  let start_time_iso : JValue :=
    match send_at with
    | .dt d => .str (isoformatMillis d)
    | .preformatted s => .str s
  { p with data := dictInsert p.data "scheduledAt" start_time_iso }

/-- Sequential fail-fast mapping of a fallible function over a list: the
evaluation order of a Python list comprehension or for loop in which an
exception aborts the whole call. -/
def mapExcept {α β : Type} (f : α → Except PyError β) : List α → Except PyError (List β)
  | [] => .ok []
  | x :: rest => do
    let y ← f x
    let ys ← mapExcept f rest
    pure (y :: ys)

/-- One messageVersions entry built by serialize_data from one entry of
the to list: the dict with to set to the one-element list and params set
to merge_data.get of the entry's email value. A list or dict email value
is an unhashable dict.get key (TypeError in Python); any other non-string
value is hashable and simply misses, since merge_data keys are address
strings. -/
def burstVersion (md : List (String × JValue)) (toEntry : JValue) : Except PyError JValue := do
  let emailVal ← jGetItem toEntry "email"
  let params ←
    match emailVal with
    | .str s => pure ((dictLookup md s).getD .null)
    | .arr _ => Except.error PyError.typeError
    | .obj _ => Except.error PyError.typeError
    | _ => pure JValue.null
  pure (.obj [("to", .arr [toEntry]), ("params", params)])

/-- The body of the per-version merge_metadata loop in serialize_data:
reads the entry's recipient address, and when that address has a
merge_metadata override, sets the entry's headers to a dict carrying
X-Mailin-custom with the JSON serialization of the global metadata
updated by the override. -/
def applyMergeMetadata (p : SendinBluePayload) (version : JValue) : Except PyError JValue := do
  let toArr ← jGetItem version "to"
  let first ← jIndex toArr 0
  let emailVal ← jGetItem first "email"
  match emailVal with
  | .str to_email =>
      match dictLookup p.merge_metadata to_email with
      | some mm =>
          let recipient_metadata := dictUpdate p.metadata mm
          match version with
          | .obj fs => pure (.obj (dictInsert fs "headers"
              (.obj [("X-Mailin-custom", .str (serialize_json (.obj recipient_metadata)))])))
          | _ => Except.error PyError.typeError
      | none => pure version
  | .arr _ => Except.error PyError.typeError
  | .obj _ => Except.error PyError.typeError
  | _ => pure version

/-- SendinBluePayload.serialize_data: for a batch send, pops the to key
(defaulting to the empty list) and bursts it into messageVersions, then,
when any per-recipient metadata exists, merges it into the entries;
finally drops the top-level headers key when its dict ended up empty, and
returns the updated payload together with the JSON rendering of data. -/
def serialize_data (p : SendinBluePayload) :
    Except PyError (SendinBluePayload × String) := do
  let data1 ←
    if p.isBatch then do
      let to_list ←
        match dictLookup p.data "to" with
        | none => pure ([] : List JValue)
        | some v =>
            match pyIter v with
            | some xs => pure xs
            | none => Except.error PyError.typeError
      let d0 := dictRemove p.data "to"
      let versions ← mapExcept (burstVersion p.merge_data) to_list
      let versions2 ←
        if !p.merge_metadata.isEmpty then mapExcept (applyMergeMetadata p) versions
        else pure versions
      pure (dictInsert d0 "messageVersions" (.arr versions2))
    else pure p.data
  let data2 ←
    match dictLookup data1 "headers" with
    | some h => pure (if pyTruthy h then data1 else dictRemove data1 "headers")
    | none => Except.error PyError.keyError
  pure ({ p with data := data2 }, serialize_json (.obj data2))

/-- The subscript parsed_response[key] as performed inside the
try/except blocks of parse_recipient_status: KeyError (key missing from
a dict) and TypeError (body not a dict) are caught together there, so
both are collapsed to none. -/
def jlookup (v : JValue) (k : String) : Option JValue :=
  match v with
  | .obj fields => dictLookup fields k
  | _ => none

/-- The dict comprehension assigning one shared status to the address of
every recipient of the payload. -/
def default_status_map (recips : List EmailAddress) (mid : JValue) :
    List (String × AnymailRecipientStatus) :=
  recips.foldl (fun d r => dictInsert d r.addr_spec ⟨mid, "queued"⟩) []

/-- Errors raised by parse_recipient_status: the
AnymailRequestsAPIError raised for an unrecognized response format,
carrying the error text, the original message, the constructed payload
and the response body; or an uncaught Python TypeError (non-iterable
messageIds value reaching zip). -/
inductive ParseStatusError where
  | apiFormatError (errmsg : String) (email_message : String)
      (pl : SendinBluePayload) (response : JValue) : ParseStatusError
  | typeError : ParseStatusError

/-- EmailBackend.parse_recipient_status. The HTTP response is modelled
by its body: none for an empty body, some v for a non-empty body whose
JSON parses to v (deserialize_json_response is outside src; a body that
fails to parse raises there and never reaches this logic). An empty body
yields the default queued/None status for every recipient; a messageId
key applies that single id to every recipient; otherwise a messageIds
value is zipped positionally onto to_recipients, overriding their default
entries; a body with neither key raises the API-format error. -/
def parse_recipient_status (message : String) (p : SendinBluePayload)
    (body : Option JValue) :
    Except ParseStatusError (List (String × AnymailRecipientStatus)) :=
  match body with
  | none => .ok (default_status_map p.all_recipients .null)
  | some v =>
    match jlookup v "messageId" with
    | some mid => .ok (default_status_map p.all_recipients mid)
    | none =>
      match jlookup v "messageIds" with
      | none => .error (.apiFormatError "Invalid SendinBlue API response format" message p v)
      | some mids =>
          let base := default_status_map p.all_recipients .null
          if pyTruthy mids then
            match pyIter mids with
            | some ids =>
                .ok ((p.to_recipients.zip ids).foldl
                  (fun d pr => dictInsert d pr.1.addr_spec ⟨pr.2, "queued"⟩) base)
            | none => .error .typeError
          else .ok base

/-!
Basic lemmas about the dict model.
-/

theorem dictLookup_dictInsert {V : Type} (d : List (String × V)) (k k1 : String) (v : V) :
    dictLookup (dictInsert d k v) k1 = if k = k1 then some v else dictLookup d k1 := by
  induction d with
  | nil =>
      by_cases h : k = k1 <;> simp [dictInsert, dictLookup, h]
  | cons hd rest ih =>
      obtain ⟨k2, v2⟩ := hd
      by_cases h2 : k2 = k
      · subst h2
        by_cases h : k2 = k1 <;> simp [dictInsert, dictLookup, h]
      · by_cases h : k2 = k1
        · subst h
          rw [if_neg (fun hh : k = k2 => h2 hh.symm)]
          simp [dictInsert, dictLookup, h2]
        · simp [dictInsert, dictLookup, h2, h, ih]

theorem dictLookup_dictRemove_ne {V : Type} (d : List (String × V)) (k k1 : String)
    (h : k1 ≠ k) : dictLookup (dictRemove d k) k1 = dictLookup d k1 := by
  induction d with
  | nil => simp [dictRemove]
  | cons hd rest ih =>
      obtain ⟨k2, v2⟩ := hd
      by_cases h2 : k2 = k
      · subst h2
        have hrm : dictRemove ((k2, v2) :: rest) k2 = rest := by simp [dictRemove]
        rw [hrm]
        simp [dictLookup, Ne.symm h]
      · by_cases h1 : k2 = k1
        · subst h1
          simp [dictRemove, dictLookup, h2]
        · simp [dictRemove, dictLookup, h1, h2, ih]

theorem dictLookup_eq_none_of_notMem {V : Type} (d : List (String × V)) (k : String)
    (h : k ∉ d.map Prod.fst) : dictLookup d k = none := by
  induction d with
  | nil => simp [dictLookup]
  | cons hd rest ih =>
      obtain ⟨k2, v2⟩ := hd
      simp only [List.map_cons, List.mem_cons, not_or] at h
      have h2 : ¬ k2 = k := fun hh => h.1 hh.symm
      simp [dictLookup, h2, ih h.2]

theorem dictLookup_dictRemove_self {V : Type} (d : List (String × V)) (k : String)
    (hnd : (d.map Prod.fst).Nodup) : dictLookup (dictRemove d k) k = none := by
  induction d with
  | nil => simp [dictRemove, dictLookup]
  | cons hd rest ih =>
      obtain ⟨k2, v2⟩ := hd
      simp only [List.map_cons, List.nodup_cons] at hnd
      by_cases h2 : k2 = k
      · subst h2
        simpa [dictRemove] using dictLookup_eq_none_of_notMem rest k2 hnd.1
      · simp [dictRemove, dictLookup, h2, ih hnd.2]

theorem mem_dictInsert {V : Type} (d : List (String × V)) (k : String) (v : V)
    (pr : String × V) (h : pr ∈ dictInsert d k v) : pr = (k, v) ∨ pr ∈ d := by
  induction d with
  | nil => simpa [dictInsert] using h
  | cons hd rest ih =>
      obtain ⟨k2, v2⟩ := hd
      simp only [dictInsert] at h
      by_cases h2 : k2 = k
      · rw [if_pos h2] at h
        rcases List.mem_cons.mp h with h3 | h3
        · exact Or.inl h3
        · exact Or.inr (List.mem_cons.mpr (Or.inr h3))
      · rw [if_neg h2] at h
        rcases List.mem_cons.mp h with h3 | h3
        · exact Or.inr (List.mem_cons.mpr (Or.inl h3))
        · rcases ih h3 with h4 | h4
          · exact Or.inl h4
          · exact Or.inr (List.mem_cons.mpr (Or.inr h4))

theorem dictLookup_foldl_insert_notMem {V : Type} (pairs : List (String × V))
    (d0 : List (String × V)) (k : String) (h : k ∉ pairs.map Prod.fst) :
    dictLookup (pairs.foldl (fun d pr => dictInsert d pr.1 pr.2) d0) k = dictLookup d0 k := by
  induction pairs generalizing d0 with
  | nil => rfl
  | cons hd rest ih =>
      simp only [List.map_cons, List.mem_cons, not_or] at h
      simp only [List.foldl_cons]
      rw [ih _ h.2, dictLookup_dictInsert]
      rw [if_neg (fun hh => h.1 hh.symm)]

theorem dictLookup_foldl_insert_nodup {V : Type} (pairs : List (String × V))
    (d0 : List (String × V)) (i : Nat) (k : String) (v : V)
    (hget : pairs[i]? = some (k, v)) (hnd : (pairs.map Prod.fst).Nodup) :
    dictLookup (pairs.foldl (fun d pr => dictInsert d pr.1 pr.2) d0) k = some v := by
  induction pairs generalizing d0 i with
  | nil => simp at hget
  | cons hd rest ih =>
      simp only [List.map_cons, List.nodup_cons] at hnd
      match i with
      | 0 =>
          simp only [List.getElem?_cons_zero] at hget
          injection hget with hget
          subst hget
          simp only [List.foldl_cons]
          rw [dictLookup_foldl_insert_notMem _ _ _ hnd.1, dictLookup_dictInsert, if_pos rfl]
      | Nat.succ j =>
          simp only [List.getElem?_cons_succ] at hget
          simp only [List.foldl_cons]
          exact ih _ j hget hnd.2

theorem dictLookup_status_foldl (recips : List EmailAddress) (st : AnymailRecipientStatus)
    (d0 : List (String × AnymailRecipientStatus)) (k : String) :
    dictLookup (recips.foldl (fun d r => dictInsert d r.addr_spec st) d0) k =
      if k ∈ recips.map EmailAddress.addr_spec then some st else dictLookup d0 k := by
  induction recips generalizing d0 with
  | nil => simp
  | cons r rest ih =>
      simp only [List.foldl_cons, List.map_cons, List.mem_cons]
      rw [ih]
      by_cases hm : k ∈ rest.map EmailAddress.addr_spec
      · simp [hm]
      · by_cases he : r.addr_spec = k
        · simp [hm, dictLookup_dictInsert, he]
        · simp only [hm, if_false, dictLookup_dictInsert, if_neg he]
          rw [if_neg]
          simp only [hm, or_false]
          exact fun hh => he hh.symm

theorem dictLookup_default_status_map (recips : List EmailAddress) (mid : JValue) (k : String) :
    dictLookup (default_status_map recips mid) k =
      if k ∈ recips.map EmailAddress.addr_spec then some ⟨mid, "queued"⟩ else none := by
  simpa [default_status_map] using dictLookup_status_foldl recips ⟨mid, "queued"⟩ [] k

theorem mem_status_foldl (recips : List EmailAddress) (st : AnymailRecipientStatus)
    (d0 : List (String × AnymailRecipientStatus)) (pr : String × AnymailRecipientStatus)
    (h : pr ∈ recips.foldl (fun d r => dictInsert d r.addr_spec st) d0) :
    pr.2 = st ∨ pr ∈ d0 := by
  induction recips generalizing d0 with
  | nil => exact Or.inr h
  | cons r rest ih =>
      simp only [List.foldl_cons] at h
      rcases ih _ h with h1 | h1
      · exact Or.inl h1
      · rcases mem_dictInsert _ _ _ _ h1 with h2 | h2
        · exact Or.inl (by simp [h2])
        · exact Or.inr h2

theorem exceptBind_ok {ε α β : Type} (a : α) (f : α → Except ε β) :
    (Except.ok a : Except ε α) >>= f = f a := rfl

theorem exceptPure_eq {ε α : Type} (a : α) : (pure a : Except ε α) = Except.ok a := rfl

theorem mapExcept_map {α β γ : Type} (f : β → Except PyError γ) (g : α → β) (l : List α) :
    mapExcept f (l.map g) = mapExcept (fun a => f (g a)) l := by
  induction l with
  | nil => rfl
  | cons a rest ih => simp [mapExcept, ih]

theorem mapExcept_ok {α β : Type} (f : α → Except PyError β) (g : α → β) (l : List α)
    (h : ∀ a ∈ l, f a = .ok (g a)) : mapExcept f l = .ok (l.map g) := by
  induction l with
  | nil => rfl
  | cons a rest ih =>
      simp only [mapExcept, h a (by simp), List.map_cons,
        ih (fun b hb => h b (by simp [hb]))]
      rfl

theorem zip_map_fst {α β : Type} (l1 : List α) (l2 : List β) :
    (l1.zip l2).map Prod.fst = l1.take l2.length := by
  induction l1 generalizing l2 with
  | nil => simp
  | cons a rest ih =>
      cases l2 with
      | nil => simp
      | cons b rest2 => simp [ih]

/-!
Characterization of serialize_data on a batch payload.
-/

/-- The messageVersions entry produced by the burst step alone for one
original to recipient: to is the one-element list holding the recipient
object, params the merge_data entry for the address (None when absent). -/
def base_version_entry (md : List (String × JValue)) (e : EmailAddress) : JValue :=
  .obj [("to", .arr [email_object e]), ("params", (dictLookup md e.addr_spec).getD .null)]

/-- The messageVersions entry serialize_data finally produces for one
original to recipient: the burst entry, with a headers dict carrying
X-Mailin-custom (the JSON serialization of the global metadata updated
by the override) appended exactly when the address has a merge_metadata
override. -/
def version_entry (p : SendinBluePayload) (e : EmailAddress) : JValue :=
  match dictLookup p.merge_metadata e.addr_spec with
  | some mm =>
      .obj [("to", .arr [email_object e]),
            ("params", (dictLookup p.merge_data e.addr_spec).getD .null),
            ("headers", .obj [("X-Mailin-custom",
              .str (serialize_json (.obj (dictUpdate p.metadata mm))))])]
  | none => base_version_entry p.merge_data e

theorem burstVersion_email_object (md : List (String × JValue)) (e : EmailAddress) :
    burstVersion md (email_object e) = .ok (base_version_entry md e) := rfl

theorem version_entry_of_no_merge_metadata (p : SendinBluePayload) (e : EmailAddress)
    (h : p.merge_metadata = []) : version_entry p e = base_version_entry p.merge_data e := by
  simp [version_entry, h, dictLookup]

theorem applyMergeMetadata_base (p : SendinBluePayload) (e : EmailAddress) :
    applyMergeMetadata p (base_version_entry p.merge_data e) = .ok (version_entry p e) := by
  have h1 : applyMergeMetadata p (base_version_entry p.merge_data e) =
      match dictLookup p.merge_metadata e.addr_spec with
      | some mm => Except.ok (.obj [("to", .arr [email_object e]),
          ("params", (dictLookup p.merge_data e.addr_spec).getD .null),
          ("headers", .obj [("X-Mailin-custom",
            .str (serialize_json (.obj (dictUpdate p.metadata mm))))])])
      | none => Except.ok (base_version_entry p.merge_data e) := rfl
  rw [h1]
  cases hmm : dictLookup p.merge_metadata e.addr_spec <;> simp [version_entry, hmm]

/-- The value of data after the batch burst, before the empty-headers
cleanup: to removed, messageVersions appended. -/
def burst_data (p : SendinBluePayload) (tos : List EmailAddress) : List (String × JValue) :=
  dictInsert (dictRemove p.data "to") "messageVersions" (.arr (tos.map (version_entry p)))

theorem serialize_data_batch_spec (p : SendinBluePayload) (tos : List EmailAddress)
    (hs : List (String × JValue)) (hb : p.isBatch = true)
    (hto : dictLookup p.data "to" = some (.arr (tos.map email_object)))
    (hh : dictLookup p.data "headers" = some (.obj hs))
    (hnd : (p.data.map Prod.fst).Nodup) :
    ∃ q s, serialize_data p = .ok (q, s) ∧
      dictLookup q.data "to" = none ∧
      dictLookup q.data "messageVersions" = some (.arr (tos.map (version_entry p))) := by
  have hburst : mapExcept (burstVersion p.merge_data) (tos.map email_object) =
      .ok (tos.map (base_version_entry p.merge_data)) := by
    rw [mapExcept_map]
    exact mapExcept_ok _ _ _ (fun e _ => burstVersion_email_object _ e)
  have hdata1 : dictLookup (dictInsert (dictRemove p.data "to") "messageVersions"
      (.arr (tos.map (version_entry p)))) "headers" = some (.obj hs) := by
    rw [dictLookup_dictInsert, if_neg (by decide),
      dictLookup_dictRemove_ne _ _ _ (by decide)]
    exact hh
  have hrun : serialize_data p = Except.ok
      ({ p with data := if pyTruthy (.obj hs) then burst_data p tos
                        else dictRemove (burst_data p tos) "headers" },
        serialize_json (.obj (if pyTruthy (.obj hs) then burst_data p tos
                              else dictRemove (burst_data p tos) "headers"))) := by
    by_cases hmm : p.merge_metadata = []
    · have hcongr : List.map (base_version_entry p.merge_data) tos =
          List.map (version_entry p) tos :=
        List.map_congr_left (fun e _ => (version_entry_of_no_merge_metadata p e hmm).symm)
      simp only [serialize_data, hb, eq_self_iff_true, if_true, hto, pyIter, exceptBind_ok,
        exceptPure_eq, hburst, hcongr, hmm, List.isEmpty_nil, Bool.not_true,
        Bool.false_eq_true, if_false, hdata1, burst_data]
    · have hne : p.merge_metadata.isEmpty = false := by
        cases h2 : p.merge_metadata with
        | nil => exact absurd h2 hmm
        | cons a b => rfl
      have happly : mapExcept (applyMergeMetadata p)
          (List.map (base_version_entry p.merge_data) tos)
          = Except.ok (List.map (version_entry p) tos) := by
        rw [mapExcept_map]
        exact mapExcept_ok _ (version_entry p) _ (fun e _ => applyMergeMetadata_base p e)
      simp only [serialize_data, hb, eq_self_iff_true, if_true, hto, pyIter, exceptBind_ok,
        exceptPure_eq, hburst, hne, Bool.not_false, happly, hdata1, burst_data]
  have hto2 : dictLookup (burst_data p tos) "to" = none := by
    rw [burst_data, dictLookup_dictInsert, if_neg (by decide)]
    exact dictLookup_dictRemove_self _ _ hnd
  have hmv2 : dictLookup (burst_data p tos) "messageVersions" =
      some (.arr (tos.map (version_entry p))) := by
    rw [burst_data, dictLookup_dictInsert]
    exact if_pos rfl
  by_cases hpt : pyTruthy (.obj hs)
  · refine ⟨_, _, hrun, ?_, ?_⟩
    · simpa only [hpt, if_true] using hto2
    · simpa only [hpt, if_true] using hmv2
  · refine ⟨_, _, hrun, ?_, ?_⟩
    · simp only [hpt, Bool.false_eq_true, if_false]
      rw [dictLookup_dictRemove_ne _ _ _ (by decide)]
      exact hto2
    · simp only [hpt, Bool.false_eq_true, if_false]
      rw [dictLookup_dictRemove_ne _ _ _ (by decide)]
      exact hmv2

/-!
Claims about parse_recipient_status.
-/

/-- True exactly on the AnymailRequestsAPIError outcome (the API-format
error raise site) of parse_recipient_status. -/
def isApiFormatError {α : Type} : Except ParseStatusError α → Bool
  | .error (.apiFormatError _ _ _ _) => true
  | _ => false

/-- C4: for every payload, when the HTTP response body is empty,
parse_recipient_status returns a mapping whose keys are the addresses of
the recipients in all_recipients and whose value for every recipient is
status queued with message id None. -/
theorem claim_C4_empty_body_default (message : String) (p : SendinBluePayload) :
    ∃ m, parse_recipient_status message p none = Except.ok m ∧
      (∀ r ∈ p.all_recipients, dictLookup m r.addr_spec = some ⟨JValue.null, "queued"⟩) ∧
      (∀ k, (dictLookup m k).isSome → k ∈ p.all_recipients.map EmailAddress.addr_spec) ∧
      (∀ pr ∈ m, pr.2 = (⟨JValue.null, "queued"⟩ : AnymailRecipientStatus)) := by
  refine ⟨default_status_map p.all_recipients .null, rfl, ?_, ?_, ?_⟩
  · intro r hr
    rw [dictLookup_default_status_map]
    exact if_pos (List.mem_map_of_mem _ hr)
  · intro k hk
    rw [dictLookup_default_status_map] at hk
    by_cases hm : k ∈ p.all_recipients.map EmailAddress.addr_spec
    · exact hm
    · rw [if_neg hm] at hk
      simp at hk
  · intro pr hpr
    rcases mem_status_foldl p.all_recipients _ [] pr
        (by simpa [default_status_map] using hpr) with h | h
    · exact h
    · simp at h

/-- C4 witness: a concrete one-recipient payload with an empty response
body gets the queued/None status for that recipient. -/
theorem claim_C4_witness :
    ∃ m, parse_recipient_status "m"
        { init_payload with all_recipients := [⟨"a@x.com", ""⟩] } none = Except.ok m ∧
      dictLookup m "a@x.com" = some ⟨JValue.null, "queued"⟩ := by
  obtain ⟨m, h1, h2, -, -⟩ := claim_C4_empty_body_default "m"
    { init_payload with all_recipients := [⟨"a@x.com", ""⟩] }
  exact ⟨m, h1, h2 ⟨"a@x.com", ""⟩ (by simp)⟩

/-- C5: parse_recipient_status raises the API-format error if and only if
the response body is non-empty and its parsed JSON has neither a
messageId nor a messageIds key; the raised error carries the error text,
the original message, the payload, and the response body; an empty body
never raises it. -/
theorem claim_C5_api_format_error_iff (message : String) (p : SendinBluePayload) (v : JValue) :
    (isApiFormatError (parse_recipient_status message p (some v)) = true ↔
      (jlookup v "messageId" = none ∧ jlookup v "messageIds" = none)) ∧
    ((jlookup v "messageId" = none ∧ jlookup v "messageIds" = none) →
      parse_recipient_status message p (some v) =
        Except.error (.apiFormatError "Invalid SendinBlue API response format" message p v)) ∧
    isApiFormatError (parse_recipient_status message p none) = false := by
  refine ⟨?_, ?_, rfl⟩
  · cases h1 : jlookup v "messageId" with
    | some mid => simp [parse_recipient_status, h1, isApiFormatError]
    | none =>
        cases h2 : jlookup v "messageIds" with
        | none => simp [parse_recipient_status, h1, h2, isApiFormatError]
        | some mids =>
            simp only [parse_recipient_status, h1, h2]
            by_cases ht : pyTruthy mids
            · cases hit : pyIter mids <;> simp [ht, hit, isApiFormatError]
            · simp [ht, isApiFormatError]
  · intro ⟨h1, h2⟩
    simp [parse_recipient_status, h1, h2]

/-- C5 witness: the concrete body with neither key raises the API-format
error carrying the message, payload and response body. -/
theorem claim_C5_witness :
    parse_recipient_status "m" init_payload (some (.obj [("foo", .str "bar")])) =
      Except.error (.apiFormatError "Invalid SendinBlue API response format" "m"
        init_payload (.obj [("foo", .str "bar")])) :=
  (claim_C5_api_format_error_iff "m" init_payload (.obj [("foo", .str "bar")])).2.1 ⟨rfl, rfl⟩

/-- C9: when the parsed body has both a messageId and a messageIds key,
parse_recipient_status takes the single-id path: the result is the
default map built from the messageId value, every recipient gets that
id, and the messageIds value plays no role. -/
theorem claim_C9_messageId_wins (message : String) (p : SendinBluePayload)
    (fs : List (String × JValue)) (mid mids : JValue)
    (h1 : dictLookup fs "messageId" = some mid)
    (h2 : dictLookup fs "messageIds" = some mids) :
    parse_recipient_status message p (some (.obj fs)) =
      Except.ok (default_status_map p.all_recipients mid) ∧
    ∀ r ∈ p.all_recipients,
      dictLookup (default_status_map p.all_recipients mid) r.addr_spec =
        some ⟨mid, "queued"⟩ := by
  constructor
  · simp [parse_recipient_status, jlookup, h1]
  · intro r hr
    rw [dictLookup_default_status_map]
    exact if_pos (List.mem_map_of_mem _ hr)

/-- C9 witness: a concrete body with both keys applies the single id to
every recipient, including a second to recipient that the messageIds
array would have mapped differently. -/
theorem claim_C9_witness :
    parse_recipient_status "m"
        { init_payload with
            all_recipients := [⟨"a@x.com", ""⟩, ⟨"b@x.com", ""⟩],
            to_recipients := [⟨"a@x.com", ""⟩, ⟨"b@x.com", ""⟩] }
        (some (.obj [("messageId", .str "abc"), ("messageIds", .arr [.str "z1", .str "z2"])]))
      = Except.ok (default_status_map [⟨"a@x.com", ""⟩, ⟨"b@x.com", ""⟩] (.str "abc")) ∧
    dictLookup (default_status_map [⟨"a@x.com", ""⟩, ⟨"b@x.com", ""⟩]
        ((JValue.str "abc"))) "b@x.com" = some ⟨.str "abc", "queued"⟩ := by
  obtain ⟨h1, h2⟩ := claim_C9_messageId_wins "m"
    { init_payload with
        all_recipients := [⟨"a@x.com", ""⟩, ⟨"b@x.com", ""⟩],
        to_recipients := [⟨"a@x.com", ""⟩, ⟨"b@x.com", ""⟩] }
    [("messageId", .str "abc"), ("messageIds", .arr [.str "z1", .str "z2"])]
    (.str "abc") (.arr [.str "z1", .str "z2"]) rfl rfl
  exact ⟨h1, h2 ⟨"b@x.com", ""⟩ (by simp)⟩

theorem zip_getElem {α β : Type} (l1 : List α) (l2 : List β) (i : Nat) (a : α) (b : β)
    (h1 : l1[i]? = some a) (h2 : l2[i]? = some b) : (l1.zip l2)[i]? = some (a, b) := by
  induction l1 generalizing l2 i with
  | nil => simp at h1
  | cons x rest ih =>
      cases l2 with
      | nil => simp at h2
      | cons y rest2 =>
          match i with
          | 0 =>
              simp only [List.getElem?_cons_zero] at h1 h2
              injection h1 with h1
              injection h2 with h2
              subst h1
              subst h2
              simp [List.zip_cons_cons]
          | Nat.succ j =>
              simp only [List.getElem?_cons_succ] at h1 h2
              simpa [List.zip_cons_cons] using ih rest2 j h1 h2

/-- C2 counterexample: the claim fails when a cc recipient shares its
address with a to recipient covered by the messageIds zip. With to and cc
both a single recipient at address a@x.com and one returned id, the
mapping (keyed by address) holds the id, so the cc recipient does not
keep the default queued/None status the claim promises it. -/
theorem claim_C2_counterexample :
    ∃ m, parse_recipient_status "msg"
        { init_payload with
            all_recipients := [⟨"a@x.com", ""⟩, ⟨"a@x.com", ""⟩],
            to_recipients := [⟨"a@x.com", ""⟩] }
        (some (.obj [("messageIds", .arr [.str "m1"])])) = Except.ok m ∧
      ¬ (∀ r ∈ ({ init_payload with
            all_recipients := [⟨"a@x.com", ""⟩, ⟨"a@x.com", ""⟩],
            to_recipients := [⟨"a@x.com", ""⟩] } :
            SendinBluePayload).all_recipients.drop 1,
          dictLookup m r.addr_spec = some ⟨JValue.null, "queued"⟩) := by
  refine ⟨[("a@x.com", ⟨.str "m1", "queued"⟩)], rfl, ?_⟩
  intro hall
  have h := hall ⟨"a@x.com", ""⟩ (by simp)
  simp [dictLookup] at h

/-- C2 amended: the positional zip claim, under the hypothesis (implicit
in the claim) that recipient addresses are pairwise distinct. Given a
body with messageIds and no messageId, every to recipient at a position
covered by the ids array gets the matching id with status queued, every
to recipient at a position beyond the array length keeps the default
queued/None status, and every cc/bcc recipient (the part of
all_recipients after the to part) keeps the default queued/None status. -/
theorem claim_C2_amended (message : String) (p : SendinBluePayload)
    (tos rest : List EmailAddress) (fs : List (String × JValue)) (ids : List JValue)
    (htor : p.to_recipients = tos)
    (hall : p.all_recipients = tos ++ rest)
    (hnd : ((tos ++ rest).map EmailAddress.addr_spec).Nodup)
    (h1 : dictLookup fs "messageId" = none)
    (h2 : dictLookup fs "messageIds" = some (.arr ids)) :
    ∃ m, parse_recipient_status message p (some (.obj fs)) = Except.ok m ∧
      (∀ (i : Nat) (e : EmailAddress) (mid : JValue), tos[i]? = some e → ids[i]? = some mid →
        dictLookup m e.addr_spec = some ⟨mid, "queued"⟩) ∧
      (∀ (i : Nat) (e : EmailAddress), tos[i]? = some e → ids[i]? = none →
        dictLookup m e.addr_spec = some ⟨JValue.null, "queued"⟩) ∧
      (∀ r ∈ rest, dictLookup m r.addr_spec = some ⟨JValue.null, "queued"⟩) := by
  have hnd2 : ((tos.map EmailAddress.addr_spec) ++ (rest.map EmailAddress.addr_spec)).Nodup := by
    rw [← List.map_append]
    exact hnd
  have hndtos : (tos.map EmailAddress.addr_spec).Nodup := (List.nodup_append.mp hnd2).1
  have hdisj : (tos.map EmailAddress.addr_spec).Disjoint (rest.map EmailAddress.addr_spec) :=
    (List.nodup_append.mp hnd2).2.2
  by_cases hids : ids = []
  · subst hids
    have hparse : parse_recipient_status message p (some (.obj fs)) =
        Except.ok (default_status_map p.all_recipients .null) := by
      simp [parse_recipient_status, jlookup, h1, h2, pyTruthy]
    refine ⟨_, hparse, ?_, ?_, ?_⟩
    · intro i e mid _ hmid
      simp at hmid
    · intro i e hie _
      rw [dictLookup_default_status_map]
      refine if_pos ?_
      rw [hall, List.map_append]
      exact List.mem_append_left _
        (List.mem_map_of_mem _ (List.mem_iff_getElem?.mpr ⟨i, hie⟩))
    · intro r hr
      rw [dictLookup_default_status_map]
      refine if_pos ?_
      rw [hall, List.map_append]
      exact List.mem_append_right _ (List.mem_map_of_mem _ hr)
  · have htr : pyTruthy (.arr ids) = true := by
      cases ids with
      | nil => exact absurd rfl hids
      | cons a l => rfl
    have hparse : parse_recipient_status message p (some (.obj fs)) =
        Except.ok ((p.to_recipients.zip ids).foldl
          (fun d pr => dictInsert d pr.1.addr_spec ⟨pr.2, "queued"⟩)
          (default_status_map p.all_recipients .null)) := by
      simp [parse_recipient_status, jlookup, h1, h2, htr, pyIter]
    have hfold : (p.to_recipients.zip ids).foldl
        (fun d pr => dictInsert d pr.1.addr_spec ⟨pr.2, "queued"⟩)
        (default_status_map p.all_recipients .null) =
        ((tos.zip ids).map
          (fun pr => (pr.1.addr_spec, (⟨pr.2, "queued"⟩ : AnymailRecipientStatus)))).foldl
          (fun d pr => dictInsert d pr.1 pr.2)
          (default_status_map p.all_recipients .null) := by
      rw [htor, List.foldl_map]
    have hkeys : ((tos.zip ids).map
        (fun pr => (pr.1.addr_spec, (⟨pr.2, "queued"⟩ : AnymailRecipientStatus)))).map Prod.fst
        = (tos.map EmailAddress.addr_spec).take ids.length := by
      rw [List.map_map]
      have hcomp : (Prod.fst ∘ fun pr : EmailAddress × JValue =>
          (pr.1.addr_spec, (⟨pr.2, "queued"⟩ : AnymailRecipientStatus)))
          = EmailAddress.addr_spec ∘ Prod.fst := rfl
      rw [hcomp, ← List.map_map, zip_map_fst, List.map_take]
    have hkeysnd : (((tos.zip ids).map
        (fun pr => (pr.1.addr_spec, (⟨pr.2, "queued"⟩ : AnymailRecipientStatus)))).map
          Prod.fst).Nodup := by
      rw [hkeys]
      exact List.Nodup.sublist (List.take_sublist _ _) hndtos
    refine ⟨_, hparse.trans (congrArg Except.ok hfold), ?_, ?_, ?_⟩
    · intro i e mid hie hmid
      have hpair : ((tos.zip ids).map
          (fun pr => (pr.1.addr_spec, (⟨pr.2, "queued"⟩ : AnymailRecipientStatus))))[i]? =
          some (e.addr_spec, ⟨mid, "queued"⟩) := by
        rw [List.getElem?_map, zip_getElem tos ids i e mid hie hmid]
        rfl
      exact dictLookup_foldl_insert_nodup _ _ i _ _ hpair hkeysnd
    · intro i e hie hnone
      have hlen : ids.length ≤ i := List.getElem?_eq_none_iff.mp hnone
      have hnotin : e.addr_spec ∉ ((tos.zip ids).map
          (fun pr => (pr.1.addr_spec, (⟨pr.2, "queued"⟩ : AnymailRecipientStatus)))).map
            Prod.fst := by
        rw [hkeys]
        intro hmem
        obtain ⟨j, hj⟩ := List.mem_iff_getElem?.mp hmem
        rw [List.getElem?_take] at hj
        by_cases hjl : j < ids.length
        · rw [if_pos hjl] at hj
          have hi2 : (tos.map EmailAddress.addr_spec)[i]? = some e.addr_spec := by
            rw [List.getElem?_map, hie]
            rfl
          have hjlt : j < (tos.map EmailAddress.addr_spec).length :=
            (List.getElem?_eq_some.mp hj).1
          have hij : j = i := List.getElem?_inj hjlt hndtos (hj.trans hi2.symm)
          omega
        · rw [if_neg hjl] at hj
          exact Option.noConfusion hj
      rw [dictLookup_foldl_insert_notMem _ _ _ hnotin, dictLookup_default_status_map]
      refine if_pos ?_
      rw [hall, List.map_append]
      exact List.mem_append_left _
        (List.mem_map_of_mem _ (List.mem_iff_getElem?.mpr ⟨i, hie⟩))
    · intro r hr
      have hnotin : r.addr_spec ∉ ((tos.zip ids).map
          (fun pr => (pr.1.addr_spec, (⟨pr.2, "queued"⟩ : AnymailRecipientStatus)))).map
            Prod.fst := by
        rw [hkeys]
        intro hmem
        exact hdisj ((List.take_sublist _ _).subset hmem) (List.mem_map_of_mem _ hr)
      rw [dictLookup_foldl_insert_notMem _ _ _ hnotin, dictLookup_default_status_map]
      refine if_pos ?_
      rw [hall, List.map_append]
      exact List.mem_append_right _ (List.mem_map_of_mem _ hr)

/-- C2 witness: two to recipients, one cc recipient, two returned ids:
the first to recipient gets the first id, the second to recipient the
second id, and the cc recipient keeps the default queued/None status. -/
theorem claim_C2_witness :
    ∃ m, parse_recipient_status "msg"
        { init_payload with
            all_recipients := [⟨"a@x.com", ""⟩, ⟨"b@x.com", ""⟩, ⟨"c@x.com", ""⟩],
            to_recipients := [⟨"a@x.com", ""⟩, ⟨"b@x.com", ""⟩] }
        (some (.obj [("messageIds", .arr [.str "m1", .str "m2"])])) = Except.ok m ∧
      dictLookup m "a@x.com" = some ⟨.str "m1", "queued"⟩ ∧
      dictLookup m "b@x.com" = some ⟨.str "m2", "queued"⟩ ∧
      dictLookup m "c@x.com" = some ⟨JValue.null, "queued"⟩ := by
  obtain ⟨m, hp, hcov, -, hrest⟩ := claim_C2_amended "msg"
    { init_payload with
        all_recipients := [⟨"a@x.com", ""⟩, ⟨"b@x.com", ""⟩, ⟨"c@x.com", ""⟩],
        to_recipients := [⟨"a@x.com", ""⟩, ⟨"b@x.com", ""⟩] }
    [⟨"a@x.com", ""⟩, ⟨"b@x.com", ""⟩] [⟨"c@x.com", ""⟩]
    [("messageIds", .arr [.str "m1", .str "m2"])] [.str "m1", .str "m2"]
    rfl rfl (by simp) rfl rfl
  refine ⟨m, hp, ?_, ?_, ?_⟩
  · exact hcov 0 ⟨"a@x.com", ""⟩ (.str "m1") rfl rfl
  · exact hcov 1 ⟨"b@x.com", ""⟩ (.str "m2") rfl rfl
  · exact hrest ⟨"c@x.com", ""⟩ (by simp)

/-!
Claims about serialize_data.
-/

/-- C1: for every batch payload whose to entry was built by
set_recipients (a list of email objects), with the headers key present
and dict keys unique, serialize_data removes the top-level to key and
sets messageVersions to a list with exactly one entry per original to
recipient, in order; each entry has to equal to the one-recipient list
and params equal to the merge_data entry for that address (None when the
address has no merge_data entry); when there is no per-recipient
metadata the entries are exactly these to/params objects. -/
theorem claim_C1_batch_burst (p : SendinBluePayload) (tos : List EmailAddress)
    (hs : List (String × JValue)) (hb : p.isBatch = true)
    (hto : dictLookup p.data "to" = some (.arr (tos.map email_object)))
    (hh : dictLookup p.data "headers" = some (.obj hs))
    (hnd : (p.data.map Prod.fst).Nodup) :
    ∃ q s vs, serialize_data p = Except.ok (q, s) ∧
      dictLookup q.data "to" = none ∧
      dictLookup q.data "messageVersions" = some (.arr vs) ∧
      vs.length = tos.length ∧
      (∀ (i : Nat) (e : EmailAddress), tos[i]? = some e →
        ∃ v, vs[i]? = some v ∧
          jGetItem v "to" = .ok (.arr [email_object e]) ∧
          jGetItem v "params" = .ok ((dictLookup p.merge_data e.addr_spec).getD .null)) ∧
      (p.merge_metadata = [] → vs = tos.map (base_version_entry p.merge_data)) := by
  obtain ⟨q, s, h1, h2, h3⟩ := serialize_data_batch_spec p tos hs hb hto hh hnd
  refine ⟨q, s, tos.map (version_entry p), h1, h2, h3, by simp, ?_, ?_⟩
  · intro i e hie
    refine ⟨version_entry p e, ?_, ?_, ?_⟩
    · rw [List.getElem?_map, hie]
      rfl
    · cases hmm : dictLookup p.merge_metadata e.addr_spec <;>
        simp [version_entry, hmm, base_version_entry, jGetItem, dictLookup]
    · cases hmm : dictLookup p.merge_metadata e.addr_spec <;>
        simp [version_entry, hmm, base_version_entry, jGetItem, dictLookup]
  · intro hmm
    exact List.map_congr_left (fun e _ => version_entry_of_no_merge_metadata p e hmm)

/-- A concrete two-recipient batch payload with merge data only for the
first recipient, as in the testable property of the spec. -/
def example_batch_payload : SendinBluePayload :=
  { init_payload with
      isBatch := true,
      data := [("headers", .obj []),
               ("to", .arr (([⟨"x@x.com", ""⟩, ⟨"y@y.com", ""⟩] :
                  List EmailAddress).map email_object))],
      merge_data := [("x@x.com", .obj [("name", .str "X")])] }

/-- C1 witness: on the concrete two-recipient batch payload, the to key
is gone and messageVersions holds one entry per recipient with params
set only for the matching address. -/
theorem claim_C1_witness :
    ∃ q s, serialize_data example_batch_payload = Except.ok (q, s) ∧
      dictLookup q.data "to" = none ∧
      dictLookup q.data "messageVersions" = some (.arr
        [.obj [("to", .arr [email_object ⟨"x@x.com", ""⟩]),
               ("params", .obj [("name", .str "X")])],
         .obj [("to", .arr [email_object ⟨"y@y.com", ""⟩]),
               ("params", JValue.null)]]) := by
  obtain ⟨q, s, vs, h1, h2, h3, -, -, hexact⟩ := claim_C1_batch_burst
    example_batch_payload [⟨"x@x.com", ""⟩, ⟨"y@y.com", ""⟩] [] rfl rfl rfl (by decide)
  refine ⟨q, s, h1, h2, ?_⟩
  rw [h3, hexact rfl]
  rfl

/-- C6: for every batch payload with non-empty merge_metadata (same
well-formedness hypotheses as C1), the messageVersions entries are, in
order, the version entries of the original to recipients; the entry of a
recipient whose address has a merge_metadata override carries headers
with X-Mailin-custom set to the JSON serialization of the global
metadata updated by the override, and the entry of a recipient without
an override has no headers key at all. -/
theorem claim_C6_merge_metadata_headers (p : SendinBluePayload) (tos : List EmailAddress)
    (hs : List (String × JValue)) (hb : p.isBatch = true)
    (hto : dictLookup p.data "to" = some (.arr (tos.map email_object)))
    (hh : dictLookup p.data "headers" = some (.obj hs))
    (hnd : (p.data.map Prod.fst).Nodup)
    (hmm : p.merge_metadata ≠ []) :
    ∃ q s, serialize_data p = Except.ok (q, s) ∧
      dictLookup q.data "messageVersions" = some (.arr (tos.map (version_entry p))) ∧
      ∀ (i : Nat) (e : EmailAddress), tos[i]? = some e →
        ∃ v, (tos.map (version_entry p))[i]? = some v ∧
          (∀ mm, dictLookup p.merge_metadata e.addr_spec = some mm →
            jGetItem v "headers" = .ok (.obj [("X-Mailin-custom",
              .str (serialize_json (.obj (dictUpdate p.metadata mm))))])) ∧
          (dictLookup p.merge_metadata e.addr_spec = none →
            jGetItem v "headers" = .error .keyError) := by
  obtain ⟨q, s, h1, h2, h3⟩ := serialize_data_batch_spec p tos hs hb hto hh hnd
  refine ⟨q, s, h1, h3, ?_⟩
  intro i e hie
  refine ⟨version_entry p e, ?_, ?_, ?_⟩
  · rw [List.getElem?_map, hie]
    rfl
  · intro mm hmm2
    simp [version_entry, hmm2, jGetItem, dictLookup]
  · intro hmm2
    simp [version_entry, hmm2, base_version_entry, jGetItem, dictLookup]

/-- A concrete two-recipient batch payload with global metadata and a
per-recipient metadata override for the first recipient. -/
def example_meta_payload : SendinBluePayload :=
  { init_payload with
      isBatch := true,
      data := [("headers", .obj [("X-Mailin-custom", .str "g")]),
               ("to", .arr (([⟨"x@x.com", ""⟩, ⟨"y@y.com", ""⟩] :
                  List EmailAddress).map email_object))],
      metadata := [("g", .str "1"), ("o", .str "2")],
      merge_metadata := [("x@x.com", [("o", .str "3")])] }

/-- C6 witness: on the concrete payload, the first entry carries the
merged metadata header and the second entry has no headers key. -/
theorem claim_C6_witness :
    ∃ q s v0 v1, serialize_data example_meta_payload = Except.ok (q, s) ∧
      dictLookup q.data "messageVersions" = some (.arr
        (([⟨"x@x.com", ""⟩, ⟨"y@y.com", ""⟩] : List EmailAddress).map
          (version_entry example_meta_payload))) ∧
      (([⟨"x@x.com", ""⟩, ⟨"y@y.com", ""⟩] : List EmailAddress).map
          (version_entry example_meta_payload))[0]? = some v0 ∧
      jGetItem v0 "headers" = .ok (.obj [("X-Mailin-custom",
        .str (serialize_json (.obj [("g", .str "1"), ("o", .str "3")])))]) ∧
      (([⟨"x@x.com", ""⟩, ⟨"y@y.com", ""⟩] : List EmailAddress).map
          (version_entry example_meta_payload))[1]? = some v1 ∧
      jGetItem v1 "headers" = .error .keyError := by
  obtain ⟨q, s, h1, h2, h3⟩ := claim_C6_merge_metadata_headers example_meta_payload
    [⟨"x@x.com", ""⟩, ⟨"y@y.com", ""⟩] [("X-Mailin-custom", .str "g")]
    rfl rfl rfl (by decide) (by simp [example_meta_payload])
  obtain ⟨v0, hv0, hsome0, -⟩ := h3 0 ⟨"x@x.com", ""⟩ rfl
  obtain ⟨v1, hv1, -, hnone1⟩ := h3 1 ⟨"y@y.com", ""⟩ rfl
  refine ⟨q, s, v0, v1, h1, h2, hv0, ?_, hv1, hnone1 rfl⟩
  exact hsome0 [("o", .str "3")] rfl

/-!
Claims about the individual setters.
-/

/-- C3 counterexample: on a fresh payload, setting the HTML body to A and
then to B signals unsupported-feature exactly once, but the stored
htmlContent is B, not the first value A: the second call overwrites the
value, so the claim that the value is unchanged by the second call is
false. -/
theorem claim_C3_counterexample :
    dictLookup (set_html_body (set_html_body init_payload "A") "B").data "htmlContent"
        = some (.str "B") ∧
    ¬ dictLookup (set_html_body (set_html_body init_payload "A") "B").data "htmlContent"
        = some (.str "A") ∧
    (set_html_body (set_html_body init_payload "A") "B").unsupported
        = ["multiple html parts"] := by
  refine ⟨rfl, ?_, rfl⟩
  intro h
  rw [show dictLookup (set_html_body (set_html_body init_payload "A") "B").data "htmlContent"
      = some (.str "B") from rfl] at h
  simp at h

/-- C3 amended: for every payload without a stored htmlContent and two
non-empty bodies, the second set_html_body call signals
unsupported-feature exactly once (the first call signals nothing), and
the stored htmlContent afterwards is the second body: the assignment
follows the non-fatal signal unconditionally, so the last call wins. -/
theorem claim_C3_amended (p : SendinBluePayload) (b1 b2 : String)
    (h0 : dictLookup p.data "htmlContent" = none) (h1 : b1 ≠ "") (h2 : b2 ≠ "") :
    dictLookup (set_html_body (set_html_body p b1) b2).data "htmlContent"
        = some (.str b2) ∧
    (set_html_body (set_html_body p b1) b2).unsupported =
      p.unsupported ++ ["multiple html parts"] := by
  have e1 : set_html_body p b1 =
      { p with data := dictInsert p.data "htmlContent" (.str b1) } := by
    simp [set_html_body, h1, h0]
  have e2 : dictLookup (set_html_body p b1).data "htmlContent" = some (.str b1) := by
    rw [e1]
    simp [dictLookup_dictInsert]
  constructor
  · simp [set_html_body, h2, e2, unsupported_feature, dictLookup_dictInsert]
  · rw [e1]
    simp [set_html_body, h2, dictLookup_dictInsert, unsupported_feature]

/-- C3 witness: the amended statement at the concrete fresh payload with
bodies A then B. -/
theorem claim_C3_witness :
    dictLookup (set_html_body (set_html_body init_payload "A") "B").data "htmlContent"
        = some (.str "B") ∧
    (set_html_body (set_html_body init_payload "A") "B").unsupported
        = ["multiple html parts"] := by
  have h := claim_C3_amended init_payload "A" "B" rfl (by decide) (by decide)
  simpa [init_payload] using h

/-- C7: for every sequence of set_recipients calls in the order to, cc,
bcc on a fresh payload, all_recipients ends as the concatenation of the
three lists in that order and to_recipients as the to list; and a call
with an empty list (of any of the three types) returns the payload
unchanged. -/
theorem claim_C7_recipients_accumulate (tos ccs bccs : List EmailAddress) :
    (∃ q, ((set_recipients init_payload "to" tos).bind
        (fun p1 => (set_recipients p1 "cc" ccs).bind
          (fun p2 => set_recipients p2 "bcc" bccs))) = Except.ok q ∧
      q.all_recipients = tos ++ ccs ++ bccs ∧
      q.to_recipients = tos) ∧
    (∀ (p : SendinBluePayload) (t : String), t = "to" ∨ t = "cc" ∨ t = "bcc" →
      set_recipients p t [] = Except.ok p) := by
  constructor
  · have hto : ∃ q1, set_recipients init_payload "to" tos = Except.ok q1 ∧
        q1.all_recipients = tos ∧ q1.to_recipients = tos := by
      by_cases he : tos = []
      · subst he
        exact ⟨init_payload, by simp [set_recipients], rfl, rfl⟩
      · exact ⟨{ init_payload with
            data := dictInsert init_payload.data "to" (.arr (tos.map email_object)),
            all_recipients := init_payload.all_recipients ++ tos,
            to_recipients := tos },
          by simp [set_recipients, he], by simp [init_payload], rfl⟩
    have hcc : ∀ p1, ∃ q2, set_recipients p1 "cc" ccs = Except.ok q2 ∧
        q2.all_recipients = p1.all_recipients ++ ccs ∧
        q2.to_recipients = p1.to_recipients := by
      intro p1
      by_cases he : ccs = []
      · subst he
        exact ⟨p1, by simp [set_recipients], by simp, rfl⟩
      · exact ⟨{ p1 with
            data := dictInsert p1.data "cc" (.arr (ccs.map email_object)),
            all_recipients := p1.all_recipients ++ ccs,
            to_recipients := p1.to_recipients },
          by simp [set_recipients, he], by simp, rfl⟩
    have hbcc : ∀ p2, ∃ q3, set_recipients p2 "bcc" bccs = Except.ok q3 ∧
        q3.all_recipients = p2.all_recipients ++ bccs ∧
        q3.to_recipients = p2.to_recipients := by
      intro p2
      by_cases he : bccs = []
      · subst he
        exact ⟨p2, by simp [set_recipients], by simp, rfl⟩
      · exact ⟨{ p2 with
            data := dictInsert p2.data "bcc" (.arr (bccs.map email_object)),
            all_recipients := p2.all_recipients ++ bccs,
            to_recipients := p2.to_recipients },
          by simp [set_recipients, he], by simp, rfl⟩
    obtain ⟨q1, e1, a1, t1⟩ := hto
    obtain ⟨q2, e2, a2, t2⟩ := hcc q1
    obtain ⟨q3, e3, a3, t3⟩ := hbcc q2
    refine ⟨q3, ?_, ?_, ?_⟩
    · simp only [e1, Except.bind, e2, e3]
    · rw [a3, a2, a1, List.append_assoc]
    · rw [t3, t2, t1]
  · intro p t ht
    rcases ht with rfl | rfl | rfl <;> rfl

/-- C7 witness: a concrete to list, empty cc list and bcc list; the
empty cc call is also checked to leave the final payload unchanged. -/
theorem claim_C7_witness :
    ∃ q, ((set_recipients init_payload "to" [⟨"a@x.com", ""⟩]).bind
        (fun p1 => (set_recipients p1 "cc" []).bind
          (fun p2 => set_recipients p2 "bcc" [⟨"b@x.com", ""⟩]))) = Except.ok q ∧
      q.all_recipients = [⟨"a@x.com", ""⟩, ⟨"b@x.com", ""⟩] ∧
      q.to_recipients = [⟨"a@x.com", ""⟩] ∧
      set_recipients q "cc" [] = Except.ok q := by
  obtain ⟨⟨q, hq, ha, ht⟩, hempty⟩ :=
    claim_C7_recipients_accumulate [⟨"a@x.com", ""⟩] [] [⟨"b@x.com", ""⟩]
  exact ⟨q, hq, ha, ht, hempty q "cc" (Or.inr (Or.inl rfl))⟩

/-- C8: set_send_at stores under scheduledAt the millisecond-precision
ISO-8601 rendering of a datetime-like value (one supporting isoformat),
and stores a value without an isoformat method (a pre-formatted string)
unchanged; concrete anchor: the rendering of the aware datetime
2022-02-22 04:05:06.123456+00:00. -/
theorem claim_C8_send_at :
    (∀ (p : SendinBluePayload) (d : PyDatetime),
      dictLookup (set_send_at p (.dt d)).data "scheduledAt"
        = some (.str (isoformatMillis d))) ∧
    (∀ (p : SendinBluePayload) (s : String),
      dictLookup (set_send_at p (.preformatted s)).data "scheduledAt" = some (.str s)) ∧
    isoformatMillis ⟨2022, 2, 22, 4, 5, 6, 123456, some 0⟩
      = "2022-02-22T04:05:06.123+00:00" := by
  refine ⟨?_, ?_, rfl⟩
  · intro p d
    simp [set_send_at, dictLookup_dictInsert]
  · intro p s
    simp [set_send_at, dictLookup_dictInsert]

/-- The framework calling add_attachment once per message attachment, in
order, stopping at the first raised error. -/
def add_attachments (p : SendinBluePayload) : List Attachment → Except PyError SendinBluePayload
  | [] => .ok p
  | a :: rest =>
      match add_attachment p a with
      | .ok q => add_attachments q rest
      | .error e => .error e

theorem add_attachment_arr (p : SendinBluePayload) (a : Attachment) (xs : List JValue)
    (h : dictLookup p.data "attachment" = some (.arr xs)) :
    add_attachment p a = Except.ok
      { (if a.inline then unsupported_feature p "inline attachments" else p) with
        data := dictInsert p.data "attachment" (.arr (xs ++ [attachment_object a])) } := by
  by_cases hin : a.inline <;> simp [add_attachment, hin, unsupported_feature, h]

theorem add_attachments_arr (atts : List Attachment) (p : SendinBluePayload)
    (xs : List JValue) (h : dictLookup p.data "attachment" = some (.arr xs)) :
    ∃ q, add_attachments p atts = Except.ok q ∧
      dictLookup q.data "attachment" = some (.arr (xs ++ atts.map attachment_object)) ∧
      q.unsupported = p.unsupported ++
        (atts.filter (fun a => a.inline)).map (fun _ => "inline attachments") := by
  induction atts generalizing p xs with
  | nil => exact ⟨p, rfl, by simpa using h, by simp⟩
  | cons a rest ih =>
      have e1 := add_attachment_arr p a xs h
      have h2 : dictLookup ({ (if a.inline then unsupported_feature p "inline attachments"
            else p) with
          data := dictInsert p.data "attachment" (.arr (xs ++ [attachment_object a])) } :
          SendinBluePayload).data "attachment"
          = some (.arr (xs ++ [attachment_object a])) := by
        show dictLookup (dictInsert p.data "attachment"
          (.arr (xs ++ [attachment_object a]))) "attachment" = _
        rw [dictLookup_dictInsert]
        exact if_pos rfl
      obtain ⟨q, hq, hl, hu⟩ := ih _ (xs ++ [attachment_object a]) h2
      refine ⟨q, ?_, ?_, ?_⟩
      · simp only [add_attachments, e1]
        exact hq
      · rw [hl, List.append_assoc]
        rfl
      · rw [hu]
        by_cases hin : a.inline <;>
          simp [hin, unsupported_feature, List.filter_cons]

/-- C10: every attachment is appended to the attachment array as its
{name, base64 content} object even when it is inline: the inline case
signals unsupported-feature but the append still happens. A single call
appends one entry (whether the array exists or not), and running the
calls for a non-empty attachment list on a payload without an attachment
key leaves exactly one entry per attachment, in call order, with one
collected inline signal per inline attachment. -/
theorem claim_C10_attachments_appended :
    (∀ (p : SendinBluePayload) (a : Attachment) (xs : List JValue),
      dictLookup p.data "attachment" = some (.arr xs) →
      ∃ q, add_attachment p a = Except.ok q ∧
        dictLookup q.data "attachment" = some (.arr (xs ++ [attachment_object a])) ∧
        q.unsupported = p.unsupported ++
          (if a.inline then ["inline attachments"] else [])) ∧
    (∀ (p : SendinBluePayload) (a : Attachment),
      dictLookup p.data "attachment" = none →
      ∃ q, add_attachment p a = Except.ok q ∧
        dictLookup q.data "attachment" = some (.arr [attachment_object a]) ∧
        q.unsupported = p.unsupported ++
          (if a.inline then ["inline attachments"] else [])) ∧
    (∀ (p : SendinBluePayload) (atts : List Attachment),
      dictLookup p.data "attachment" = none → atts ≠ [] →
      ∃ q, add_attachments p atts = Except.ok q ∧
        dictLookup q.data "attachment" = some (.arr (atts.map attachment_object)) ∧
        q.unsupported = p.unsupported ++
          (atts.filter (fun a => a.inline)).map (fun _ => "inline attachments")) := by
  have hnone : ∀ (p : SendinBluePayload) (a : Attachment),
      dictLookup p.data "attachment" = none →
      add_attachment p a = Except.ok
        { (if a.inline then unsupported_feature p "inline attachments" else p) with
          data := dictInsert p.data "attachment" (.arr [attachment_object a]) } := by
    intro p a h
    by_cases hin : a.inline <;> simp [add_attachment, hin, unsupported_feature, h]
  refine ⟨?_, ?_, ?_⟩
  · intro p a xs h
    refine ⟨_, add_attachment_arr p a xs h, ?_, ?_⟩
    · rw [dictLookup_dictInsert]
      exact if_pos rfl
    · by_cases hin : a.inline <;> simp [hin, unsupported_feature]
  · intro p a h
    refine ⟨_, hnone p a h, ?_, ?_⟩
    · rw [dictLookup_dictInsert]
      exact if_pos rfl
    · by_cases hin : a.inline <;> simp [hin, unsupported_feature]
  · intro p atts h hne
    cases atts with
    | nil => exact absurd rfl hne
    | cons a rest =>
        have e1 := hnone p a h
        have h2 : dictLookup ({ (if a.inline then unsupported_feature p "inline attachments"
              else p) with
            data := dictInsert p.data "attachment" (.arr [attachment_object a]) } :
            SendinBluePayload).data "attachment"
            = some (.arr [attachment_object a]) := by
          show dictLookup (dictInsert p.data "attachment"
            (.arr [attachment_object a])) "attachment" = _
          rw [dictLookup_dictInsert]
          exact if_pos rfl
        obtain ⟨q, hq, hl, hu⟩ := add_attachments_arr rest _ [attachment_object a] h2
        refine ⟨q, ?_, ?_, ?_⟩
        · simp only [add_attachments, e1]
          exact hq
        · rw [hl]
          rfl
        · rw [hu]
          by_cases hin : a.inline <;>
            simp [hin, unsupported_feature, List.filter_cons]

/-- C10 witness: on a fresh payload, adding an inline attachment and then
a regular one leaves two entries in call order and exactly one collected
inline signal. -/
theorem claim_C10_witness :
    ∃ q, add_attachments init_payload
        [⟨some "f1", "QUJD", true⟩, ⟨none, "RUZH", false⟩] = Except.ok q ∧
      dictLookup q.data "attachment" = some (.arr
        [.obj [("name", .str "f1"), ("content", .str "QUJD")],
         .obj [("name", .str ""), ("content", .str "RUZH")]]) ∧
      q.unsupported = ["inline attachments"] := by
  obtain ⟨-, -, hmulti⟩ := claim_C10_attachments_appended
  obtain ⟨q, hq, hl, hu⟩ := hmulti init_payload
    [⟨some "f1", "QUJD", true⟩, ⟨none, "RUZH", false⟩] rfl (by simp)
  exact ⟨q, hq, hl, hu⟩

end SendinBlue
